import Mathlib

/-!
# Verification of the Thalassa mesh utilities

This file gives a shallow embedding, in Lean 4, of the unstructured-mesh
utilities of the Thalassa repository (`thalassa/utils.py` and the
`inject_maximum` helper of the dashboard script), and proves properties of
those utilities.

Modelling conventions:

* An `xarray.Dataset` conforming to the thalassa schema is modelled by the
  structure `Thalassa.Dataset`: the `node` coordinate values, the per-node
  variables `lon`, `lat` and a generic per-node data variable `nodeData`
  (standing for any further variable on the `node` dimension), and the
  `triface_nodes` table, one integer triple per triangle.
* Machine floats carrying coordinates are modelled by `ℚ` (the functions
  under study only compare, add, subtract, multiply and take absolute
  values, so their behaviour on exactly-representable inputs is the
  rational one).  `NaN` entries of the quad/triangle table are modelled by
  `Option ℤ`, with `none` standing for `NaN`.
* `numpy` fancy indexing `arr[idx_list]` is modelled by
  `idx_list.map (fun i => arr.getD i default)`; all theorems that need
  in-bounds indices carry them as hypotheses.
* Fallible code (a Python `raise`) is modelled by `Except String`.
-/

namespace Thalassa

/-- A bounding box, i.e. the `bounds` of the shapely polygon produced by
`resolve_bbox`: `(minx, miny, maxx, maxy) = (west, south, east, north)`. -/
structure Bbox where
  west : ℚ
  south : ℚ
  east : ℚ
  north : ℚ
deriving DecidableEq

/-- A dataset following the thalassa schema: coordinate values of the
`node` dimension, per-node variables `lon`, `lat` and a generic per-node
variable `nodeData`, and the triangle table `triface_nodes` (the `triface`
dimension), each row being the three node indices of one triangle. -/
structure Dataset where
  node : List ℕ
  lon : List ℚ
  lat : List ℚ
  nodeData : List ℚ
  triface_nodes : List (ℕ × ℕ × ℕ)
deriving DecidableEq

/-- The triangle table holds valid indices into the node dimension. -/
def validTriface (ds : Dataset) : Prop :=
  ∀ t ∈ ds.triface_nodes,
    t.1 < ds.lon.length ∧ t.2.1 < ds.lon.length ∧ t.2.2 < ds.lon.length

instance (ds : Dataset) : Decidable (validTriface ds) := by
  unfold validTriface; infer_instance

/-- The per-node condition of `crop`:
`(lat >= bounds[1]) & (lat <= bounds[3]) & (lon >= bounds[0]) & (lon <= bounds[2])`. -/
def inBbox (ds : Dataset) (bbox : Bbox) (i : ℕ) : Bool :=
  decide (bbox.south ≤ ds.lat.getD i 0) && decide (ds.lat.getD i 0 ≤ bbox.north) &&
  decide (bbox.west ≤ ds.lon.getD i 0) && decide (ds.lon.getD i 0 ≤ bbox.east)

/-- Embeds `indices_of_nodes_in_bbox = np.where(...)[0]`: the (ascending) list of
node indices satisfying the bounding-box condition. -/
def keptNodes (ds : Dataset) (bbox : Bbox) : List ℕ :=
  (List.range ds.lon.length).filter (fun i => inBbox ds bbox i)

/-- Embeds `ds.triface_nodes.isin(indices_of_nodes_in_bbox).all(axis=1)`:
all three nodes of the triangle are kept. -/
def triKept (kept : List ℕ) (t : ℕ × ℕ × ℕ) : Bool :=
  decide (t.1 ∈ kept) && decide (t.2.1 ∈ kept) && decide (t.2.2 ∈ kept)

/-- Embeds `npi.remap(v, indices_of_nodes_in_bbox, np.arange(len(...)))`: each old
node index is sent to its position in the kept-node list. -/
def remap (kept : List ℕ) (v : ℕ) : ℕ :=
  kept.indexOf v

/-- Embeds `thalassa.utils.crop`: keep the nodes inside the bbox, keep the
triangles all of whose nodes are kept, and rewrite the triangle table
through `remap`.  `ds.isel(node=..., triface=...)` subsets every variable
of the `node` dimension and the triangle table in the given (ascending)
index order. -/
def crop (ds : Dataset) (bbox : Bbox) : Dataset :=
  let kept := keptNodes ds bbox
  let trifaceInBbox := ds.triface_nodes.filter (fun t => triKept kept t)
  { node := kept.map (fun i => ds.node.getD i 0)
    lon := kept.map (fun i => ds.lon.getD i 0)
    lat := kept.map (fun i => ds.lat.getD i 0)
    nodeData := kept.map (fun i => ds.nodeData.getD i 0)
    triface_nodes :=
      trifaceInBbox.map (fun t => (remap kept t.1, remap kept t.2.1, remap kept t.2.2)) }

/-- Embeds `thalassa.utils.split_quads`.  The face-node table is a rectangular
2-D float array of `width` columns; `none` models a `NaN` entry.  If the
last dimension is not 4 the input is returned unchanged.  Otherwise the
first three columns of every row (`face_nodes[:, :3]`) are kept, and for
every row with no `NaN` (`~np.isnan(face_nodes).any(axis=1)`, a quad) a
new triangle `np.c_[quads[:, 0], quads[:, -2:]]` is appended, in row
order.  The final `astype(int)` is the identity on the integer node
values, so entries are kept as `Option ℤ`. -/
def split_quads (width : ℕ) (rows : List (List (Option ℤ))) : List (List (Option ℤ)) :=
  if width ≠ 4 then rows
  else
    (rows.map (fun r => r.take 3)) ++
      ((rows.filter (fun r => !decide (none ∈ r))).map
        (fun r => r.take 1 ++ r.drop (r.length - 2)))

/-- Reads `lon[i]` for a node index `i`. -/
def lonAt (ds : Dataset) (i : ℕ) : ℚ :=
  ds.lon.getD i 0

/-- The per-triangle condition of `drop_elements_crossing_idl`:
`((lon_a*lon_b < 0) & (|lon_a-lon_b| >= max_lon)) | (a,c pair) | (b,c pair)`. -/
def crossesIDL (ds : Dataset) (maxLon : ℚ) (t : ℕ × ℕ × ℕ) : Bool :=
  (decide (lonAt ds t.1 * lonAt ds t.2.1 < 0) &&
    decide (maxLon ≤ |lonAt ds t.1 - lonAt ds t.2.1|)) ||
  (decide (lonAt ds t.1 * lonAt ds t.2.2 < 0) &&
    decide (maxLon ≤ |lonAt ds t.1 - lonAt ds t.2.2|)) ||
  (decide (lonAt ds t.2.1 * lonAt ds t.2.2 < 0) &&
    decide (maxLon ≤ |lonAt ds t.2.1 - lonAt ds t.2.2|))

/-- Embeds `thalassa.utils.drop_elements_crossing_idl`: validate `max_lon`, then
drop (`ds.drop_isel(triface=...)`) the triangles satisfying `crossesIDL`,
leaving every other variable untouched. -/
def drop_elements_crossing_idl (ds : Dataset) (maxLon : ℚ) : Except String Dataset :=
  if maxLon ≤ 0 then
    Except.error "Maximum longitudinal distance must be positive"
  else
    Except.ok
      { ds with triface_nodes := ds.triface_nodes.filter (fun t => !crossesIDL ds maxLon t) }

/-- A pair of node indices with strictly opposite-sign longitudes whose
absolute longitude difference is at least `maxLon` (the claim-side
formulation of the IDL-crossing condition). -/
def pairCrossesIDL (ds : Dataset) (maxLon : ℚ) (i j : ℕ) : Prop :=
  lonAt ds i * lonAt ds j < 0 ∧ maxLon ≤ |lonAt ds i - lonAt ds j|

instance (ds : Dataset) (maxLon : ℚ) (i j : ℕ) : Decidable (pairCrossesIDL ds maxLon i j) := by
  unfold pairCrossesIDL; infer_instance

/-- The squared planar distance `abs(ds.lon - lon)**2 + abs(ds.lat - lat)**2`
of node `i` from the query point. -/
def sqDistTo (ds : Dataset) (lon0 lat0 : ℚ) (i : ℕ) : ℚ :=
  |ds.lon.getD i 0 - lon0| ^ 2 + |ds.lat.getD i 0 - lat0| ^ 2

/-- Embeds `thalassa.utils.get_index_of_nearest_node`: `int(dist.argmin())`, the
first index attaining the minimal squared planar distance over the node
dimension. -/
def get_index_of_nearest_node (ds : Dataset) (lon0 lat0 : ℚ) : ℕ :=
  ((List.range ds.lon.length).argmin (sqDistTo ds lon0 lat0)).getD 0

/-- In `inject_maximum` (aaa.py), the argument of `.expand_dims` is built
by `dict(time_var=[pd.to_datetime(timestamp)])`.  Python keyword-argument
semantics make the single key of that dict the literal string
`"time_var"`, whatever the value of the `time_var` parameter is. -/
def inject_maximum_expand_dims_key (_timeVar : String) : String :=
  "time_var"

/-- In `inject_maximum` (aaa.py), the dimension along which `xr.concat`
concatenates is `dim=time_var`, i.e. the value of the parameter. -/
def inject_maximum_concat_dim (timeVar : String) : String :=
  timeVar

/-- The ring construction of `thalassa.utils.generate_mesh_polygon`:
`first_nodes = nodes[triface_nodes[:, 0]]` (and 2nd, 3rd), then
`first_lons = lons[first_nodes]` etc., then the `vstack(...).T` /
`stack` gymnastics build, per triangle, the closed 4-point ring
`[(fl, fla), (sl, sla), (tl, tla), (fl, fla)]`.  Column-wise `zip`s model
the transposition from columns to rows. -/
def generate_mesh_polygon_rings (ds : Dataset) : List (List (ℚ × ℚ)) :=
  let first_nodes := ds.triface_nodes.map (fun t => ds.node.getD t.1 0)
  let second_nodes := ds.triface_nodes.map (fun t => ds.node.getD t.2.1 0)
  let third_nodes := ds.triface_nodes.map (fun t => ds.node.getD t.2.2 0)
  let first_lons := first_nodes.map (fun v => ds.lon.getD v 0)
  let first_lats := first_nodes.map (fun v => ds.lat.getD v 0)
  let second_lons := second_nodes.map (fun v => ds.lon.getD v 0)
  let second_lats := second_nodes.map (fun v => ds.lat.getD v 0)
  let third_lons := third_nodes.map (fun v => ds.lon.getD v 0)
  let third_lats := third_nodes.map (fun v => ds.lat.getD v 0)
  let polygons_per_line :=
    (first_lons.zip first_lats).zip ((second_lons.zip second_lats).zip (third_lons.zip third_lats))
  polygons_per_line.map (fun row => [row.1, row.2.1, row.2.2, row.1])

/-- Modelled from the library semantics of `shapely.polygons`: a closed
4-point ring (a triangle with its first vertex repeated) denotes the
region spanned by its points, i.e. the convex hull of its vertex set. -/
def ringRegion (ring : List (ℚ × ℚ)) : Set (ℚ × ℚ) :=
  convexHull ℚ { p | p ∈ ring }

/-- Modelled from the library semantics of `shapely.coverage_union_all`:
for a valid coverage it returns the union of the given polygons. -/
def coverage_union_all (rings : List (List (ℚ × ℚ))) : Set (ℚ × ℚ) :=
  ⋃ ring ∈ rings, ringRegion ring

/-- Embeds `thalassa.utils.generate_mesh_polygon`:
`gpd.GeoDataFrame(geometry=[polygon])` is modelled as the singleton list
holding the union polygon of all triangle rings. -/
def generate_mesh_polygon (ds : Dataset) : List (Set (ℚ × ℚ)) :=
  [coverage_union_all (generate_mesh_polygon_rings ds)]

/-! ## Concrete inputs used by the witness theorems -/

def dsEx : Dataset :=
  { node := [0, 1, 2, 3]
    lon := [0, 1, 5, 2]
    lat := [0, 1, 0, 3]
    nodeData := [10, 20, 30, 40]
    triface_nodes := [(0, 1, 3), (1, 2, 3)] }

def bboxEx : Bbox :=
  { west := 0, south := 0, east := 2, north := 3 }

def dsIdl : Dataset :=
  { node := [0, 1, 2]
    lon := [179, -179, 0]
    lat := [0, 1, 2]
    nodeData := [1, 2, 3]
    triface_nodes := [(0, 1, 2)] }

def rowsEx : List (List (Option ℤ)) :=
  [[some 1, some 2, some 3, none], [some 4, some 5, some 6, some 7]]

/-! ## Generic list lemmas used throughout -/

theorem getD_map_of_lt {α β : Type} (l : List α) (f : α → β) (i : ℕ) (d : α) (d' : β)
    (h : i < l.length) : (l.map f).getD i d' = f (l.getD i d) := by
  rw [List.getD_eq_getElem _ _ (by simpa using h), List.getD_eq_getElem _ _ h,
    List.getElem_map]

theorem getD_range_of_lt (n i : ℕ) (d : ℕ) (h : i < n) : (List.range n).getD i d = i := by
  rw [List.getD_eq_getElem _ _ (by simpa using h)]
  simp

theorem map_getD_range {α : Type} (l : List α) (d : α) :
    (List.range l.length).map (fun i => l.getD i d) = l := by
  apply List.ext_getElem
  · simp
  · intro i h₁ h₂
    simp only [List.getElem_map, List.getElem_range]
    rw [List.getD_eq_getElem _ _ h₂]

theorem indexOf_range (i n : ℕ) (h : i < n) : (List.range n).indexOf i = i := by
  induction n with
  | zero => omega
  | succ m ih =>
    rw [List.range_succ]
    rcases Nat.lt_or_ge i m with hm | hm
    · rw [List.indexOf_append_of_mem (by simpa using hm)]
      exact ih hm
    · have hi : i = m := by omega
      subst hi
      rw [List.indexOf_append_of_not_mem (by simp)]
      simp [List.indexOf_cons]

theorem getD_indexOf_of_mem {α : Type} [DecidableEq α] {l : List α} {a : α} (d : α)
    (h : a ∈ l) : l.getD (l.indexOf a) d = a := by
  rw [List.getD_eq_getElem _ _ (List.indexOf_lt_length.mpr h)]
  exact List.getElem_indexOf (List.indexOf_lt_length.mpr h)

theorem mem_keptNodes (ds : Dataset) (bbox : Bbox) (v : ℕ) :
    v ∈ keptNodes ds bbox ↔ v < ds.lon.length ∧ inBbox ds bbox v = true := by
  simp [keptNodes, List.mem_filter, List.mem_range]

theorem decide_mem_keptNodes (ds : Dataset) (bbox : Bbox) (v : ℕ) (hv : v < ds.lon.length) :
    decide (v ∈ keptNodes ds bbox) = inBbox ds bbox v := by
  rcases hb : inBbox ds bbox v with _ | _ <;>
    simp [mem_keptNodes, hv, hb]

/-! ## Properties of `crop` -/

theorem crop_lon (ds : Dataset) (bbox : Bbox) :
    (crop ds bbox).lon = (keptNodes ds bbox).map (fun i => ds.lon.getD i 0) := rfl

theorem crop_numNodes (ds : Dataset) (bbox : Bbox) :
    (crop ds bbox).lon.length = (keptNodes ds bbox).length := by
  simp [crop]

theorem crop_triface (ds : Dataset) (bbox : Bbox) :
    (crop ds bbox).triface_nodes =
      (ds.triface_nodes.filter (fun t => triKept (keptNodes ds bbox) t)).map
        (fun t => (remap (keptNodes ds bbox) t.1, remap (keptNodes ds bbox) t.2.1,
          remap (keptNodes ds bbox) t.2.2)) := rfl

theorem crop_triface_filter_eq (ds : Dataset) (bbox : Bbox) (hv : validTriface ds) :
    ds.triface_nodes.filter (fun t => triKept (keptNodes ds bbox) t) =
      ds.triface_nodes.filter
        (fun t => inBbox ds bbox t.1 && inBbox ds bbox t.2.1 && inBbox ds bbox t.2.2) := by
  apply List.filter_congr
  intro t ht
  obtain ⟨h1, h2, h3⟩ := hv t ht
  simp only [triKept, decide_mem_keptNodes ds bbox _ h1, decide_mem_keptNodes ds bbox _ h2,
    decide_mem_keptNodes ds bbox _ h3]

theorem crop_validTriface (ds : Dataset) (bbox : Bbox) : validTriface (crop ds bbox) := by
  intro t ht
  rw [crop_triface] at ht
  simp only [List.mem_map] at ht
  obtain ⟨t₀, ht₀, rfl⟩ := ht
  have hmem := List.of_mem_filter ht₀
  simp only [triKept, Bool.and_eq_true, decide_eq_true_eq] at hmem
  rw [crop_numNodes]
  exact ⟨List.indexOf_lt_length.mpr hmem.1.1, List.indexOf_lt_length.mpr hmem.1.2,
    List.indexOf_lt_length.mpr hmem.2⟩

/-- C1: for every dataset whose triangle table holds valid node indices
and every bounding box, `crop` returns exactly the nodes whose `lon` lies
in `[west, east]` and whose `lat` lies in `[south, north]` (inclusive),
exactly the triangles all three of whose nodes are kept, and a triangle
table rewritten so that each entry is the position of the corresponding
original node inside the kept-node array; consequently every entry of the
new table is a valid index into the cropped node dimension. -/
theorem crop_spec (ds : Dataset) (bbox : Bbox) (hv : validTriface ds) :
    (crop ds bbox).lon
      = ((List.range ds.lon.length).filter (fun i => inBbox ds bbox i)).map
          (fun i => ds.lon.getD i 0)
    ∧ (crop ds bbox).lat
      = ((List.range ds.lon.length).filter (fun i => inBbox ds bbox i)).map
          (fun i => ds.lat.getD i 0)
    ∧ (crop ds bbox).triface_nodes
      = (ds.triface_nodes.filter
          (fun t => inBbox ds bbox t.1 && inBbox ds bbox t.2.1 && inBbox ds bbox t.2.2)).map
          (fun t => (remap (keptNodes ds bbox) t.1, remap (keptNodes ds bbox) t.2.1,
            remap (keptNodes ds bbox) t.2.2))
    ∧ (∀ t ∈ ds.triface_nodes,
        (inBbox ds bbox t.1 && inBbox ds bbox t.2.1 && inBbox ds bbox t.2.2) = true →
          (keptNodes ds bbox).getD (remap (keptNodes ds bbox) t.1) 0 = t.1
          ∧ (keptNodes ds bbox).getD (remap (keptNodes ds bbox) t.2.1) 0 = t.2.1
          ∧ (keptNodes ds bbox).getD (remap (keptNodes ds bbox) t.2.2) 0 = t.2.2)
    ∧ validTriface (crop ds bbox) := by
  refine ⟨rfl, rfl, ?_, ?_, crop_validTriface ds bbox⟩
  · rw [crop_triface, crop_triface_filter_eq ds bbox hv]
  · intro t ht hbb
    obtain ⟨h1, h2, h3⟩ := hv t ht
    simp only [Bool.and_eq_true] at hbb
    refine ⟨?_, ?_, ?_⟩ <;>
      exact getD_indexOf_of_mem 0 (by
        rw [mem_keptNodes]
        first
        | exact ⟨h1, hbb.1.1⟩
        | exact ⟨h2, hbb.1.2⟩
        | exact ⟨h3, hbb.2⟩)

theorem crop_spec_witness :
    validTriface dsEx ∧ validTriface (crop dsEx bboxEx) :=
  ⟨by decide, (crop_spec dsEx bboxEx (by decide)).2.2.2.2⟩

theorem Dataset.ext' (a b : Dataset) (h1 : a.node = b.node) (h2 : a.lon = b.lon)
    (h3 : a.lat = b.lat) (h4 : a.nodeData = b.nodeData)
    (h5 : a.triface_nodes = b.triface_nodes) : a = b := by
  cases a; cases b; simp_all

theorem crop_lat (ds : Dataset) (bbox : Bbox) :
    (crop ds bbox).lat = (keptNodes ds bbox).map (fun i => ds.lat.getD i 0) := rfl

theorem crop_node (ds : Dataset) (bbox : Bbox) :
    (crop ds bbox).node = (keptNodes ds bbox).map (fun i => ds.node.getD i 0) := rfl

theorem crop_nodeData (ds : Dataset) (bbox : Bbox) :
    (crop ds bbox).nodeData = (keptNodes ds bbox).map (fun i => ds.nodeData.getD i 0) := rfl

theorem inBbox_crop (ds : Dataset) (bbox : Bbox) (i : ℕ)
    (h : i < (crop ds bbox).lon.length) : inBbox (crop ds bbox) bbox i = true := by
  rw [crop_numNodes] at h
  have hlat : (crop ds bbox).lat.getD i 0 = ds.lat.getD ((keptNodes ds bbox).getD i 0) 0 := by
    rw [crop_lat]; exact getD_map_of_lt _ _ _ 0 _ h
  have hlon : (crop ds bbox).lon.getD i 0 = ds.lon.getD ((keptNodes ds bbox).getD i 0) 0 := by
    rw [crop_lon]; exact getD_map_of_lt _ _ _ 0 _ h
  have hmem : (keptNodes ds bbox).getD i 0 ∈ keptNodes ds bbox := by
    rw [List.getD_eq_getElem _ _ h]
    exact List.getElem_mem h
  have hbb : inBbox ds bbox ((keptNodes ds bbox).getD i 0) = true :=
    ((mem_keptNodes ds bbox _).mp hmem).2
  simp only [inBbox, Bool.and_eq_true, decide_eq_true_eq] at hbb ⊢
  rw [hlat, hlon]
  exact hbb

theorem keptNodes_crop (ds : Dataset) (bbox : Bbox) :
    keptNodes (crop ds bbox) bbox = List.range (crop ds bbox).lon.length := by
  unfold keptNodes
  rw [List.filter_eq_self]
  intro i hi
  exact inBbox_crop ds bbox i (List.mem_range.mp hi)

/-- C10: `crop` is idempotent: applying it twice with the same bounding box
gives the same dataset as applying it once, and on the second application
every node already satisfies the bounding-box bounds, so the kept-node
list is the full index range (the index remapping is the identity). -/
theorem crop_idempotent (ds : Dataset) (bbox : Bbox) :
    crop (crop ds bbox) bbox = crop ds bbox
    ∧ keptNodes (crop ds bbox) bbox = List.range (crop ds bbox).lon.length := by
  refine ⟨?_, keptNodes_crop ds bbox⟩
  have hlen : (keptNodes ds bbox).length = (crop ds bbox).lon.length :=
    (crop_numNodes ds bbox).symm
  have hnode : (crop ds bbox).node.length = (crop ds bbox).lon.length := by
    rw [crop_node, crop_lon]; simp
  have hlat : (crop ds bbox).lat.length = (crop ds bbox).lon.length := by
    rw [crop_lat, crop_lon]; simp
  have hdata : (crop ds bbox).nodeData.length = (crop ds bbox).lon.length := by
    rw [crop_nodeData, crop_lon]; simp
  have htri : ∀ t ∈ (crop ds bbox).triface_nodes,
      triKept (List.range (crop ds bbox).lon.length) t = true := by
    intro t ht
    obtain ⟨h1, h2, h3⟩ := crop_validTriface ds bbox t ht
    simp [triKept, List.mem_range, h1, h2, h3]
  apply Dataset.ext'
  · rw [crop_node (crop ds bbox) bbox, keptNodes_crop, ← hnode, map_getD_range]
  · rw [crop_lon (crop ds bbox) bbox, keptNodes_crop, map_getD_range]
  · rw [crop_lat (crop ds bbox) bbox, keptNodes_crop, ← hlat, map_getD_range]
  · rw [crop_nodeData (crop ds bbox) bbox, keptNodes_crop, ← hdata, map_getD_range]
  · rw [crop_triface (crop ds bbox) bbox, keptNodes_crop,
      List.filter_eq_self.mpr htri]
    have : ∀ t ∈ (crop ds bbox).triface_nodes,
        (remap (List.range (crop ds bbox).lon.length) t.1,
          remap (List.range (crop ds bbox).lon.length) t.2.1,
          remap (List.range (crop ds bbox).lon.length) t.2.2) = t := by
      intro t ht
      obtain ⟨h1, h2, h3⟩ := crop_validTriface ds bbox t ht
      simp [remap, indexOf_range _ _ h1, indexOf_range _ _ h2, indexOf_range _ _ h3]
    rw [List.map_congr_left this]
    exact List.map_id _

theorem take_append_lastTwo {α : Type} (r : List α) (d : α) (h : r.length = 4) :
    r.take 1 ++ r.drop (r.length - 2) = [r.getD 0 d, r.getD 2 d, r.getD 3 d] := by
  rcases r with _ | ⟨a, _ | ⟨b, _ | ⟨c, _ | ⟨e, _ | ⟨f, r⟩⟩⟩⟩⟩
  all_goals
    first
    | rfl
    | (simp only [List.length_cons, List.length_nil] at h; omega)

/-- C2: on a 2-D face-node array whose last dimension is not 4,
`split_quads` is the identity; on a 4-column array it returns a 3-column
array consisting of the first three columns of every input row followed
by, for every `NaN`-free input row (a quad), the triangle made of that
row's first node and its last two nodes, in input-row order; hence the
output has `N + number-of-quads` rows. -/
theorem split_quads_spec (width : ℕ) (rows : List (List (Option ℤ)))
    (hw : ∀ r ∈ rows, r.length = width) :
    (width ≠ 4 → split_quads width rows = rows)
    ∧ (width = 4 →
        split_quads width rows
          = rows.map (fun r => r.take 3)
            ++ (rows.filter (fun r => !decide (none ∈ r))).map
                (fun r => [r.getD 0 none, r.getD 2 none, r.getD 3 none])
        ∧ (∀ r ∈ split_quads width rows, r.length = 3)
        ∧ (split_quads width rows).length
            = rows.length + (rows.filter (fun r => !decide (none ∈ r))).length) := by
  refine ⟨fun hne => by simp [split_quads, hne], fun h4 => ?_⟩
  subst h4
  have he : split_quads 4 rows
      = rows.map (fun r => r.take 3)
        ++ (rows.filter (fun r => !decide (none ∈ r))).map
            (fun r => [r.getD 0 none, r.getD 2 none, r.getD 3 none]) := by
    unfold split_quads
    rw [if_neg (by simp)]
    congr 1
    apply List.map_congr_left
    intro r hr
    exact take_append_lastTwo r none (hw r (List.mem_filter.mp hr).1)
  refine ⟨he, ?_, ?_⟩
  · intro r hr
    rw [he] at hr
    rcases List.mem_append.mp hr with hl | hl
    · obtain ⟨r₀, hr₀, rfl⟩ := List.mem_map.mp hl
      have h4 := hw r₀ hr₀
      rw [List.length_take]
      omega
    · obtain ⟨r₀, hr₀, rfl⟩ := List.mem_map.mp hl
      rfl
  · rw [he]
    simp

theorem split_quads_spec_witness :
    (∀ r ∈ rowsEx, r.length = 4)
    ∧ (split_quads 4 rowsEx).length
        = rowsEx.length + (rowsEx.filter (fun r => !decide (none ∈ r))).length :=
  ⟨by decide, ((split_quads_spec 4 rowsEx (by decide)).2 rfl).2.2⟩

theorem crossesIDL_iff (ds : Dataset) (maxLon : ℚ) (t : ℕ × ℕ × ℕ) :
    crossesIDL ds maxLon t = true ↔
      ∃ i ∈ [t.1, t.2.1, t.2.2], ∃ j ∈ [t.1, t.2.1, t.2.2],
        pairCrossesIDL ds maxLon i j := by
  simp only [crossesIDL, Bool.or_eq_true, Bool.and_eq_true, decide_eq_true_eq,
    List.mem_cons, List.not_mem_nil, or_false, pairCrossesIDL]
  constructor
  · rintro ((⟨h1, h2⟩ | ⟨h1, h2⟩) | ⟨h1, h2⟩)
    · exact ⟨t.1, Or.inl rfl, t.2.1, Or.inr (Or.inl rfl), h1, h2⟩
    · exact ⟨t.1, Or.inl rfl, t.2.2, Or.inr (Or.inr rfl), h1, h2⟩
    · exact ⟨t.2.1, Or.inr (Or.inl rfl), t.2.2, Or.inr (Or.inr rfl), h1, h2⟩
  · rintro ⟨i, (rfl | rfl | rfl), j, (rfl | rfl | rfl), h1, h2⟩
    · exact absurd h1 (not_lt.mpr (mul_self_nonneg _))
    · exact Or.inl (Or.inl ⟨h1, h2⟩)
    · exact Or.inl (Or.inr ⟨h1, h2⟩)
    · exact Or.inl (Or.inl ⟨by rwa [mul_comm], by rwa [abs_sub_comm]⟩)
    · exact absurd h1 (not_lt.mpr (mul_self_nonneg _))
    · exact Or.inr ⟨h1, h2⟩
    · exact Or.inl (Or.inr ⟨by rwa [mul_comm], by rwa [abs_sub_comm]⟩)
    · exact Or.inr ⟨by rwa [mul_comm], by rwa [abs_sub_comm]⟩
    · exact absurd h1 (not_lt.mpr (mul_self_nonneg _))

theorem crossesIDL_eq_decide (ds : Dataset) (maxLon : ℚ) (t : ℕ × ℕ × ℕ) :
    crossesIDL ds maxLon t
      = decide (∃ i ∈ [t.1, t.2.1, t.2.2], ∃ j ∈ [t.1, t.2.1, t.2.2],
          pairCrossesIDL ds maxLon i j) := by
  rw [Bool.eq_iff_iff, crossesIDL_iff]
  simp

/-- C3: for every dataset and every `max_lon > 0`,
`drop_elements_crossing_idl` removes exactly the triangles containing at
least one pair of nodes with strictly-opposite-sign longitudes (negative
product) at absolute longitude difference at least `max_lon`; every other
triangle stays, in order, and all node-level data is unchanged. -/
theorem drop_elements_crossing_idl_spec (ds : Dataset) (maxLon : ℚ) (h : 0 < maxLon) :
    ∃ ds₂, drop_elements_crossing_idl ds maxLon = Except.ok ds₂
      ∧ ds₂.node = ds.node ∧ ds₂.lon = ds.lon ∧ ds₂.lat = ds.lat
      ∧ ds₂.nodeData = ds.nodeData
      ∧ ds₂.triface_nodes
          = ds.triface_nodes.filter
              (fun (t : ℕ × ℕ × ℕ) => !decide (∃ i ∈ [t.1, t.2.1, t.2.2], ∃ j ∈ [t.1, t.2.1, t.2.2],
                  pairCrossesIDL ds maxLon i j)) := by
  refine ⟨{ ds with
      triface_nodes := ds.triface_nodes.filter (fun t => !crossesIDL ds maxLon t) },
    ?_, rfl, rfl, rfl, rfl, ?_⟩
  · unfold drop_elements_crossing_idl
    rw [if_neg (not_le.mpr h)]
  · show ds.triface_nodes.filter _ = _
    apply List.filter_congr
    intro t _
    rw [crossesIDL_eq_decide]

theorem drop_elements_crossing_idl_spec_witness :
    ∃ ds₂, drop_elements_crossing_idl dsIdl 10 = Except.ok ds₂
      ∧ ds₂.node = dsIdl.node ∧ ds₂.lon = dsIdl.lon ∧ ds₂.lat = dsIdl.lat
      ∧ ds₂.nodeData = dsIdl.nodeData
      ∧ ds₂.triface_nodes
          = dsIdl.triface_nodes.filter
              (fun (t : ℕ × ℕ × ℕ) => !decide (∃ i ∈ [t.1, t.2.1, t.2.2], ∃ j ∈ [t.1, t.2.1, t.2.2],
                  pairCrossesIDL dsIdl 10 i j)) :=
  drop_elements_crossing_idl_spec dsIdl 10 (by norm_num)

/-- C6: `drop_elements_crossing_idl` fails with a `ValueError` exactly when
`max_lon <= 0`, and in that case the failure happens before any
computation on the mesh: the result does not depend on the dataset at
all (so nothing has been dropped and the input is untouched). -/
theorem drop_elements_crossing_idl_validation (ds ds₂ : Dataset) (maxLon : ℚ) :
    ((∃ msg, drop_elements_crossing_idl ds maxLon = Except.error msg) ↔ maxLon ≤ 0)
    ∧ (maxLon ≤ 0 →
        drop_elements_crossing_idl ds maxLon = drop_elements_crossing_idl ds₂ maxLon) := by
  constructor
  · constructor
    · rintro ⟨msg, hmsg⟩
      by_contra hpos
      unfold drop_elements_crossing_idl at hmsg
      rw [if_neg hpos] at hmsg
      exact Except.noConfusion hmsg
    · intro hle
      exact ⟨_, by unfold drop_elements_crossing_idl; rw [if_pos hle]⟩
  · intro hle
    unfold drop_elements_crossing_idl
    rw [if_pos hle, if_pos hle]

theorem drop_elements_crossing_idl_validation_witness :
    ∃ msg, drop_elements_crossing_idl dsEx (-1) = Except.error msg :=
  (drop_elements_crossing_idl_validation dsEx dsIdl (-1)).1.mpr (by norm_num)

/-- C4: for every dataset with a non-empty node dimension,
`get_index_of_nearest_node` returns a valid node index minimizing the
planar squared distance `(lon_i - lon0)^2 + (lat_i - lat0)^2` over all
nodes; the distance applies no longitude wrap-around. -/
theorem get_index_of_nearest_node_spec (ds : Dataset) (lon0 lat0 : ℚ)
    (h : ds.lon.length ≠ 0) :
    get_index_of_nearest_node ds lon0 lat0 < ds.lon.length
    ∧ ∀ j < ds.lon.length,
        (ds.lon.getD (get_index_of_nearest_node ds lon0 lat0) 0 - lon0) ^ 2
          + (ds.lat.getD (get_index_of_nearest_node ds lon0 lat0) 0 - lat0) ^ 2
        ≤ (ds.lon.getD j 0 - lon0) ^ 2 + (ds.lat.getD j 0 - lat0) ^ 2 := by
  obtain ⟨m, hm⟩ : ∃ m, (List.range ds.lon.length).argmin (sqDistTo ds lon0 lat0) = some m := by
    cases hopt : (List.range ds.lon.length).argmin (sqDistTo ds lon0 lat0) with
    | none => exact absurd (List.range_eq_nil.mp (List.argmin_eq_none.mp hopt)) h
    | some m => exact ⟨m, rfl⟩
  have hidx : get_index_of_nearest_node ds lon0 lat0 = m := by
    unfold get_index_of_nearest_node
    rw [hm]
    rfl
  have hmem : m ∈ List.range ds.lon.length := List.argmin_mem hm
  constructor
  · rw [hidx]
    exact List.mem_range.mp hmem
  · intro j hj
    have hle : sqDistTo ds lon0 lat0 m ≤ sqDistTo ds lon0 lat0 j :=
      List.le_of_mem_argmin (List.mem_range.mpr hj) hm
    rw [hidx]
    simpa [sqDistTo, sq_abs] using hle

theorem get_index_of_nearest_node_spec_witness :
    dsEx.lon.length ≠ 0 ∧ get_index_of_nearest_node dsEx 1 1 < dsEx.lon.length :=
  ⟨by decide, (get_index_of_nearest_node_spec dsEx 1 1 (by decide)).1⟩

/-- C5: `inject_maximum` builds the `expand_dims` argument with
`dict(time_var=[pd.to_datetime(timestamp)])`, whose single key is the
literal string `"time_var"`, while it concatenates along `dim=time_var`.
For the failing input `time_var = "time"` the two dimension names differ,
so the placeholder timestamp is attached to a fresh `"time_var"`
dimension and the resulting time coordinate does not begin with the
placeholder, contradicting the function's own docstring. -/
theorem inject_maximum_dim_mismatch :
    inject_maximum_expand_dims_key "time" = "time_var"
    ∧ inject_maximum_concat_dim "time" = "time"
    ∧ inject_maximum_expand_dims_key "time" ≠ inject_maximum_concat_dim "time" := by
  refine ⟨rfl, rfl, ?_⟩
  decide

theorem ring_setOf_eq (p₁ p₂ p₃ : ℚ × ℚ) :
    { p : ℚ × ℚ | p ∈ [p₁, p₂, p₃, p₁] } = {p₁, p₂, p₃} := by
  ext p
  simp only [Set.mem_setOf_eq, List.mem_cons, List.not_mem_nil, or_false,
    Set.mem_insert_iff, Set.mem_singleton_iff]
  tauto

/-- C9: `generate_mesh_polygon` builds, for each triangle, the closed ring
through the `lon`/`lat` coordinates of its three nodes with the first node
repeated as the fourth ring point (each ring has exactly 4 coordinate
pairs), and returns a single geometry: the union of all the triangles. -/
theorem generate_mesh_polygon_spec (ds : Dataset)
    (hnode : ds.node = List.range ds.lon.length) (hv : validTriface ds) :
    generate_mesh_polygon_rings ds
      = ds.triface_nodes.map (fun t =>
          [(ds.lon.getD t.1 0, ds.lat.getD t.1 0), (ds.lon.getD t.2.1 0, ds.lat.getD t.2.1 0),
            (ds.lon.getD t.2.2 0, ds.lat.getD t.2.2 0), (ds.lon.getD t.1 0, ds.lat.getD t.1 0)])
    ∧ (∀ ring ∈ generate_mesh_polygon_rings ds,
        ring.length = 4 ∧ ring.getLast? = ring.head?)
    ∧ generate_mesh_polygon ds
        = [⋃ t ∈ { t | t ∈ ds.triface_nodes },
            convexHull ℚ {(ds.lon.getD t.1 0, ds.lat.getD t.1 0),
              (ds.lon.getD t.2.1 0, ds.lat.getD t.2.1 0),
              (ds.lon.getD t.2.2 0, ds.lat.getD t.2.2 0)}] := by
  have h1 : generate_mesh_polygon_rings ds
      = ds.triface_nodes.map (fun t =>
          [(ds.lon.getD t.1 0, ds.lat.getD t.1 0), (ds.lon.getD t.2.1 0, ds.lat.getD t.2.1 0),
            (ds.lon.getD t.2.2 0, ds.lat.getD t.2.2 0),
            (ds.lon.getD t.1 0, ds.lat.getD t.1 0)]) := by
    unfold generate_mesh_polygon_rings
    simp only [List.map_map, List.zip_map', List.map_map]
    apply List.map_congr_left
    intro t ht
    obtain ⟨hlt1, hlt2, hlt3⟩ := hv t ht
    simp only [Function.comp_apply, hnode, getD_range_of_lt _ _ _ hlt1,
      getD_range_of_lt _ _ _ hlt2, getD_range_of_lt _ _ _ hlt3]
  refine ⟨h1, ?_, ?_⟩
  · intro ring hr
    rw [h1] at hr
    obtain ⟨t, _, rfl⟩ := List.mem_map.mp hr
    exact ⟨rfl, rfl⟩
  · show [coverage_union_all (generate_mesh_polygon_rings ds)] = _
    rw [h1]
    congr 1
    unfold coverage_union_all
    ext p
    simp only [Set.mem_iUnion, Set.mem_setOf_eq, exists_prop]
    constructor
    · rintro ⟨r, hr, hp⟩
      obtain ⟨t, ht, rfl⟩ := List.mem_map.mp hr
      refine ⟨t, ht, ?_⟩
      rwa [ringRegion, ring_setOf_eq] at hp
    · rintro ⟨t, ht, hp⟩
      refine ⟨_, List.mem_map_of_mem _ ht, ?_⟩
      rwa [ringRegion, ring_setOf_eq]

theorem generate_mesh_polygon_spec_witness :
    dsEx.node = List.range dsEx.lon.length
    ∧ ∀ ring ∈ generate_mesh_polygon_rings dsEx,
        ring.length = 4 ∧ ring.getLast? = ring.head? :=
  ⟨by decide, (generate_mesh_polygon_spec dsEx (by decide) (by decide)).2.1⟩

end Thalassa
